import Mathlib

/-!
Verification development for the ReceiptsHist repository.

The definitions below are shallow embeddings of the Python sources:

* `src/query_engine.py` — SQL safety validator (`_validate_sql`), the
  `LIMIT` row-cap rewrite, the empty-aggregate result fallback, the
  friendly-error mapping and the audit-logging control flow of `run_query`.
* `src/ai_scanner.py` — the extraction validator/normalizer
  (`_validate_and_clean`), JSON extraction (`_extract_json`) and the
  truncated-JSON repair step of `scan_receipt`.

Python strings are modelled as `String`/`List Char`, Python numbers as `ℚ`,
nullable fields as `Option`, and Python truthiness is made explicit.
-/

namespace ReceiptsHist

/-- Whitespace set of Python `str.strip()` (ASCII part): space, tab, newline,
carriage return, vertical tab, form feed. -/
def isPySpace (c : Char) : Bool :=
  c == ' ' || c == '\t' || c == '\n' || c == '\r' || c == Char.ofNat 11 || c == Char.ofNat 12

/-- A semicolon test, used for Python `str.rstrip(";")`. -/
def isSemi (c : Char) : Bool := c == ';'

/-- Word character in the sense of the regex metacharacter backslash-w
(ASCII): letters, digits, underscore. -/
def isWordChar (c : Char) : Bool := c.isAlphanum || c == '_'

/-- Python substring test `needle in hay`. -/
def containsSub (needle : List Char) : List Char → Bool
  | [] => needle.isEmpty
  | c :: t => needle.isPrefixOf (c :: t) || containsSub needle t

/-- Python `str.upper()` on the character list (ASCII). -/
def upperChars (l : List Char) : List Char := l.map Char.toUpper

/-- Python `str.strip()`: remove leading and trailing whitespace. -/
def pyStrip (l : List Char) : List Char := (l.dropWhile isPySpace).rdropWhile isPySpace

/-- The string examined by `_validate_sql`: `sql.strip().rstrip(";")`
(src/query_engine.py line 141). -/
def sqlStripped (l : List Char) : List Char := (pyStrip l).rdropWhile isSemi

/-- Accumulator-style splitting of a character list into its maximal runs of
word characters.  `acc` holds the (reversed) currently open run. -/
def wordsAux : List Char → List Char → List (List Char)
  | [], acc => if acc.isEmpty then [] else [acc.reverse]
  | c :: cs, acc =>
    if isWordChar c then wordsAux cs (c :: acc)
    else if acc.isEmpty then wordsAux cs []
    else acc.reverse :: wordsAux cs []

/-- The maximal word-character runs of a character list. -/
def wordsOf (l : List Char) : List (List Char) := wordsAux l []

/-- Keyword list of the `DANGEROUS_KEYWORDS` regex
(src/query_engine.py lines 131-134). -/
def DANGEROUS_KEYWORDS : List (List Char) :=
  ["INSERT", "UPDATE", "DELETE", "DROP", "ALTER", "CREATE", "TRUNCATE",
   "EXEC", "EXECUTE", "GRANT", "REVOKE"].map String.data

/-- Search of the case-insensitive regex `\b(INSERT|...|REVOKE)\b`.  Because
every keyword consists solely of word characters, the regex matches the text
exactly when some maximal word-character run equals a keyword up to ASCII
case, which is what this function tests. -/
def containsDangerous (l : List Char) : Bool :=
  (wordsOf l).any (fun w => DANGEROUS_KEYWORDS.any (fun kw => upperChars w == kw))

/-- Embedding of `_validate_sql` (src/query_engine.py lines 139-149):
returns the pair `(valid, error_reason)`. -/
def validate_sql (sql : String) : Bool × Option String :=
  let t := sqlStripped sql.data
  if ("SELECT".data.isPrefixOf (upperChars t)) = false then
    (false, some "Query must be a SELECT statement.")
  else if containsDangerous t then
    (false, some "Query contains forbidden keywords.")
  else
    (true, none)

/-- The fixed row cap `MAX_ROWS` (src/query_engine.py line 136). -/
def MAX_ROWS : Nat := 500

/-- Embedding of the row-cap rewrite of `run_query`
(src/query_engine.py lines 196-198): if `"LIMIT"` does not occur in the
uppercased statement, strip trailing semicolons and append the cap. -/
def ensure_limit (sql : String) : String :=
  if containsSub "LIMIT".data (upperChars sql.data) then sql
  else String.mk (sql.data.rdropWhile isSemi) ++ " LIMIT " ++ toString MAX_ROWS

/-- Rounding half to even of a rational, the idealised semantics of Python
`round` and of the `.2f` format rounding. -/
def roundHalfEven (x : ℚ) : ℤ :=
  let f := Rat.floor x
  let r := x - f
  if r < 1 / 2 then f
  else if r > 1 / 2 then f + 1
  else if f % 2 = 0 then f else f + 1

/-- Python `round(x, 2)`. -/
def round2 (q : ℚ) : ℚ := (roundHalfEven (q * 100) : ℚ) / 100

/-- Digit grouping of a reversed digit list: a comma after every three
digits, working from the least significant end. -/
def group3Rev : List Char → List Char
  | a :: b :: c :: d :: rest => a :: b :: c :: ',' :: group3Rev (d :: rest)
  | l => l

/-- Thousands grouping of a decimal digit string. -/
def groupDigits (s : String) : String := String.mk ((group3Rev s.data.reverse).reverse)

/-- Python `f"${v:,.2f}"` (src/query_engine.py line 219): currency symbol,
thousands separators, two decimals. -/
def formatMoney (q : ℚ) : String :=
  let cents := roundHalfEven (q * 100)
  let a := cents.natAbs
  let fracPart := if a % 100 < 10 then "0" ++ toString (a % 100) else toString (a % 100)
  "$" ++ (if cents < 0 then "-" else "") ++ groupDigits (toString (a / 100)) ++ "." ++ fracPart

/-- The money-column name keywords (src/query_engine.py line 208). -/
def money_keywords : List String :=
  ["total", "spent", "price", "cost", "amount", "sum", "subtotal", "tax", "tip"]

/-- Column-name money heuristic: `any(kw in k.lower() for kw in money_keywords)`. -/
def is_money_column (col : String) : Bool :=
  money_keywords.any (fun kw => containsSub kw.data (col.data.map Char.toLower))

/-- Driver-native cell values reaching the shaping loop of `run_query`:
`date` carries the `isoformat()` text of a temporal value, `blob` the
`str()` rendering of a bytes value. -/
inductive DbValue where
  | null
  | num (q : ℚ)
  | str (s : String)
  | date (iso : String)
  | blob (text : String)
deriving DecidableEq

/-- A result row: ordered column/value pairs (the `dict(zip(columns, row))`). -/
abbrev Row := List (String × DbValue)

/-- Per-value conversion of the shaping loop (src/query_engine.py
lines 209-219): temporal values to their iso text, bytes to `str`, `NULL`
money columns to `"$0.00"`, numeric money columns to formatted currency. -/
def shape_value (col : String) (v : DbValue) : DbValue :=
  match v with
  | .date s => .str s
  | .blob s => .str s
  | .null => if is_money_column col then .str "$0.00" else .null
  | .num q => if is_money_column col then .str (formatMoney q) else .num q
  | .str s => .str s

/-- Shaping of one row. -/
def shape_row (r : Row) : Row := r.map (fun kv => (kv.1, shape_value kv.1 kv.2))

/-- The aggregate-keyword test of src/query_engine.py line 222:
`any(kw in generated_sql.upper() for kw in ('SUM(', 'TOTAL'))`. -/
def aggregate_hint (sql : String) : Bool :=
  ["SUM(", "TOTAL"].any (fun kw => containsSub kw.data (upperChars sql.data))

/-- The synthesized all-zero row of src/query_engine.py line 223; Python's
int `0` is embedded as `DbValue.num 0`. -/
def zero_row (columns : List String) : Row :=
  columns.map (fun col => (col, if is_money_column col then DbValue.str "$0.00" else DbValue.num 0))

/-- Embedding of src/query_engine.py lines 221-223: an empty result set of an
aggregate-looking query is replaced by the single synthesized zero row. -/
def empty_result_fallback (sql : String) (columns : List String) (rows : List Row) : List Row :=
  if rows.isEmpty && aggregate_hint sql then [zero_row columns] else rows

/-- Embedding of the error-message mapping of src/query_engine.py
lines 247-258. -/
def friendly_error (m : String) : String :=
  let ml := m.data.map Char.toLower
  if containsSub "pattern".data ml || containsSub "did not match".data ml then
    "The query had a date or format error. Try rephrasing (e.g., \x27last month\x27 instead of specific dates)."
  else if containsSub "no such column".data ml || containsSub "does not exist".data ml then
    "The query tried to use an invalid column or function. Try a simpler question."
  else if containsSub "syntax error".data ml then
    "The generated SQL had a syntax error. Try rephrasing your question."
  else if containsSub "operator does not exist".data ml then
    "Type mismatch in query. Try rephrasing your question."
  else
    "Query failed: " ++ m.take 100

/-- An audit-log record (the `QueryLog` model of src/database.py as used by
`run_query`). -/
structure QueryLog where
  user_id : Nat
  question : String
  generated_sql : String
  result_summary : String
deriving DecidableEq

/-- Database session state: the committed audit entries plus whether a failed
statement has left the transaction unusable. -/
structure DbSession where
  logs : List QueryLog
  txFailed : Bool
deriving DecidableEq

/-- Observable session events of one `run_query` call. -/
inductive DbEvent where
  | rollback
  | logCommit (e : QueryLog)
deriving DecidableEq

/-- Test whether a session event is an audit-entry commit. -/
def is_log_commit : DbEvent → Bool
  | .logCommit _ => true
  | .rollback => false

/-- Outcome of `db.session.execute` on the rewritten statement: either column
names and fetched rows, or a raised database error. -/
inductive ExecOutcome where
  | ok (columns : List String) (rows : List Row)
  | raises (msg : String)

/-- Value returned by `run_query`: the error dict, the success dict, or an
exception escaping the function (possible only on a poisoned input session,
which the source never passes in). -/
inductive RunResult where
  | failure (error : String) (sql : String)
  | success (sql : String) (columns : List String) (rows : List Row) (summary : String)
  | crashed
deriving DecidableEq

/-- An `add` + `commit` of an audit entry.  The write succeeds exactly when no
failed transaction is pending — the behaviour the spec describes with
"otherwise the audit write itself fails". -/
def commit_log (s : DbSession) (e : QueryLog) : Option DbSession :=
  if s.txFailed then none else some { s with logs := s.logs ++ [e] }

/-- Embedding of `run_query` from validation onward (src/query_engine.py
lines 184-272).  The SQL generation call is the external oracle producing
`generated_sql`; `exec` is the database's response to the executed statement.
A raised execution error first poisons the transaction, then the source rolls
it back before writing the audit entry. -/
def run_query (uid : Nat) (question : String) (generated_sql : String)
    (exec : String → ExecOutcome) (s : DbSession) : RunResult × DbSession × List DbEvent :=
  match validate_sql generated_sql with
  | (false, err) =>
    let e : QueryLog := ⟨uid, question, generated_sql, "REJECTED: " ++ err.getD ""⟩
    match commit_log s e with
    | some s' => (.failure (err.getD "") generated_sql, s', [.logCommit e])
    | none => (.crashed, s, [])
  | (true, _) =>
    let sql := ensure_limit generated_sql
    match exec sql with
    | .ok columns rawRows =>
      let rows := empty_result_fallback sql columns (rawRows.map shape_row)
      let summary := toString rows.length ++ " row(s) returned"
      let e : QueryLog := ⟨uid, question, sql, summary⟩
      match commit_log s e with
      | some s' => (.success sql columns rows summary, s', [.logCommit e])
      | none => (.crashed, s, [])
    | .raises msg =>
      let s2 : DbSession := { s with txFailed := false }
      let e : QueryLog := ⟨uid, question, sql, "ERROR: " ++ msg.take 200⟩
      match commit_log s2 e with
      | some s3 => (.failure (friendly_error msg) sql, s3, [.rollback, .logCommit e])
      | none => (.failure (friendly_error msg) sql, { s2 with txFailed := false }, [.rollback, .rollback])

/-- Store category whitelist (src/ai_scanner.py line 57). -/
def VALID_STORE_CATEGORIES : List String :=
  ["Grocery", "Restaurant", "Gas Station", "Retail", "Online", "Service", "Other"]

/-- Line-item category whitelist (src/ai_scanner.py lines 58-62). -/
def VALID_ITEM_CATEGORIES : List String :=
  ["Dairy", "Produce", "Meat", "Bakery", "Beverages", "Snacks", "Frozen",
   "Household", "Fuel", "Entree", "Appetizer", "Dessert", "Drink", "Side",
   "Clothing", "Electronics", "Other"]

/-- Unit whitelist (src/ai_scanner.py line 63). -/
def VALID_UNITS : List String := ["each", "lb", "oz", "gal", "kg", "L"]

/-- A parsed line item; `none` stands for a JSON null or a missing key, which
`dict.get` makes indistinguishable. -/
structure LineItem where
  item_name : Option String
  normalized_name : Option String
  category : Option String
  quantity : Option ℚ
  unit : Option String
  unit_price : Option ℚ
  line_total : Option ℚ
  notes : Option String
  rating : Option ℤ
deriving DecidableEq

/-- A parsed receipt record as handed to `_validate_and_clean`. -/
structure ReceiptData where
  store_name : Option String
  store_address : Option String
  store_category : Option String
  receipt_date : Option String
  subtotal : Option ℚ
  tax : Option ℚ
  tip : Option ℚ
  total : Option ℚ
  payment_method : Option String
  items : List LineItem
deriving DecidableEq

/-- Python truthiness of a nullable number: null and zero are falsy. -/
def truthyNum : Option ℚ → Bool
  | none => false
  | some q => decide (q ≠ 0)

/-- Python `x in SET` for a nullable string against a whitelist (`None` is
never a member). -/
def memberStr (x : Option String) (l : List String) : Bool :=
  match x with
  | some s => l.contains s
  | none => false

/-- Category whitelisting of one item (src/ai_scanner.py lines 146-147). -/
def fix_category (item : LineItem) : LineItem :=
  if memberStr item.category VALID_ITEM_CATEGORIES then item
  else { item with category := some "Other" }

/-- Unit whitelisting of one item (src/ai_scanner.py lines 148-149). -/
def fix_unit (item : LineItem) : LineItem :=
  if memberStr item.unit VALID_UNITS then item
  else { item with unit := some "each" }

/-- The local `quantity = item.get("quantity") or 1`: a missing or zero
quantity falls back to `1`. -/
def pyQuantity (q : Option ℚ) : ℚ :=
  match q with
  | none => 1
  | some x => if x = 0 then 1 else x

/-- Derived-field completion of one item (src/ai_scanner.py lines 151-158).
The three locals are bound first, exactly as in the source, so the second
test still sees the original `unit_price`. -/
def fix_amounts (item : LineItem) : LineItem :=
  let line_total : ℚ := item.line_total.getD 0
  let quantity : ℚ := pyQuantity item.quantity
  let unit_price : Option ℚ := item.unit_price
  let item1 :=
    if truthyNum unit_price = false ∧ quantity ≠ 0 ∧ line_total ≠ 0 then
      { item with unit_price := some (round2 (line_total / quantity)) }
    else item
  if line_total = 0 ∧ truthyNum unit_price = true ∧ quantity ≠ 0 then
    { item1 with line_total := some (round2 (unit_price.getD 0 * quantity)) }
  else item1

/-- The per-item body of the `_validate_and_clean` loop. -/
def clean_item (item : LineItem) : LineItem := fix_amounts (fix_unit (fix_category item))

/-- Embedding of `_validate_and_clean` (src/ai_scanner.py lines 139-160). -/
def validate_and_clean (d : ReceiptData) : ReceiptData :=
  let d1 :=
    if memberStr d.store_category VALID_STORE_CATEGORIES then d
    else { d with store_category := some "Other" }
  { d1 with items := d1.items.map clean_item }

/-- The opening curly brace character. -/
def lbrace : Char := Char.ofNat 123

/-- The closing curly brace character. -/
def rbrace : Char := Char.ofNat 125

/-- Whitespace accepted between tokens by Python `json.loads`. -/
def isJsonWs (c : Char) : Bool := c == ' ' || c == '\t' || c == '\n' || c == '\r'

/-- A JSON value as produced by `json.loads`; objects keep their members in
textual order. -/
inductive Json where
  | null
  | bool (b : Bool)
  | num (q : ℚ)
  | str (s : String)
  | arr (elems : List Json)
  | obj (members : List (String × Json))

/-- Value of a hexadecimal digit. -/
def hexVal (c : Char) : Option Nat :=
  if c.isDigit then some (c.toNat - 48)
  else if 'a' ≤ c ∧ c ≤ 'f' then some (c.toNat - 87)
  else if 'A' ≤ c ∧ c ≤ 'F' then some (c.toNat - 55)
  else none

/-- Decimal digits to a natural number. -/
def digitsToNat (l : List Char) : Nat := l.foldl (fun a c => a * 10 + (c.toNat - 48)) 0

/-- Body of a JSON string after its opening quote, with the strict-mode rules
of `json.loads`: unterminated strings, raw control characters and unknown
escapes fail.  A `\u` escape becomes the code point directly (surrogate
pairing is not modelled; no input in this development uses escapes). -/
def parseStringBody : List Char → List Char → Option (String × List Char)
  | [], _ => none
  | c :: rest, acc =>
    if c == '"' then some (String.mk acc.reverse, rest)
    else if c == '\\' then
      match rest with
      | [] => none
      | e :: rest2 =>
        if e == '"' then parseStringBody rest2 ('"' :: acc)
        else if e == '\\' then parseStringBody rest2 ('\\' :: acc)
        else if e == '/' then parseStringBody rest2 ('/' :: acc)
        else if e == 'b' then parseStringBody rest2 (Char.ofNat 8 :: acc)
        else if e == 'f' then parseStringBody rest2 (Char.ofNat 12 :: acc)
        else if e == 'n' then parseStringBody rest2 ('\n' :: acc)
        else if e == 'r' then parseStringBody rest2 ('\r' :: acc)
        else if e == 't' then parseStringBody rest2 ('\t' :: acc)
        else if e == 'u' then
          match rest2 with
          | h1 :: h2 :: h3 :: h4 :: rest3 =>
            match hexVal h1, hexVal h2, hexVal h3, hexVal h4 with
            | some a, some b, some c2, some d =>
              parseStringBody rest3 (Char.ofNat (((a * 16 + b) * 16 + c2) * 16 + d) :: acc)
            | _, _, _, _ => none
          | _ => none
        else none
    else if c.toNat < 32 then none
    else parseStringBody rest (c :: acc)

/-- Fraction part of a JSON number: digits after a dot, if present. -/
def parseFrac : List Char → Option (List Char × List Char)
  | [] => some ([], [])
  | c :: t =>
    if c == '.' then
      let fd := t.takeWhile Char.isDigit
      if fd.isEmpty then none else some (fd, t.drop fd.length)
    else some ([], c :: t)

/-- Exponent part of a JSON number: `(negative, digits, rest)`. -/
def parseExp : List Char → Option (Bool × List Char × List Char)
  | [] => some (false, [], [])
  | c :: t =>
    if c == 'e' || c == 'E' then
      match t with
      | [] => none
      | s :: t2 =>
        if s == '+' then
          let d := t2.takeWhile Char.isDigit
          if d.isEmpty then none else some (false, d, t2.drop d.length)
        else if s == '-' then
          let d := t2.takeWhile Char.isDigit
          if d.isEmpty then none else some (true, d, t2.drop d.length)
        else
          let d := (s :: t2).takeWhile Char.isDigit
          if d.isEmpty then none else some (false, d, (s :: t2).drop d.length)
    else some (false, [], c :: t)

/-- Rational value of a parsed JSON number. -/
def mkJsonNumber (neg : Bool) (ip fp : List Char) (expNeg : Bool) (ed : List Char) : ℚ :=
  let mant : ℤ := (digitsToNat ip * 10 ^ fp.length + digitsToNat fp : ℕ)
  let mant := if neg then -mant else mant
  let e : ℤ := (if expNeg then -(digitsToNat ed : ℤ) else (digitsToNat ed : ℤ)) - fp.length
  if 0 ≤ e then ((mant * 10 ^ e.natAbs : ℤ) : ℚ) else Rat.divInt mant (10 ^ e.natAbs)

/-- JSON number grammar: optional minus, integer part without redundant
leading zero, optional fraction, optional exponent. -/
def parseNumberV (l : List Char) : Option (Json × List Char) :=
  let (neg, l1) := match l with
    | c :: t => if c == '-' then (true, t) else (false, c :: t)
    | [] => (false, [])
  let ip := l1.takeWhile Char.isDigit
  if ip.isEmpty then none
  else if ip.length > 1 && (ip.head? == some '0') then none
  else
    match parseFrac (l1.drop ip.length) with
    | none => none
    | some (fp, l2) =>
      match parseExp l2 with
      | none => none
      | some (expNeg, ed, l3) =>
        some (.num (mkJsonNumber neg ip fp expNeg ed), l3)

mutual

/-- Recursive-descent JSON value parser with explicit fuel; mirrors the
strict grammar of `json.loads`. -/
def parseValue : Nat → List Char → Option (Json × List Char)
  | 0, _ => none
  | fuel + 1, l =>
    let l := l.dropWhile isJsonWs
    if "true".data.isPrefixOf l then some (.bool true, l.drop 4)
    else if "false".data.isPrefixOf l then some (.bool false, l.drop 5)
    else if "null".data.isPrefixOf l then some (.null, l.drop 4)
    else
      match l with
      | [] => none
      | c :: rest =>
        if c == '"' then
          match parseStringBody rest [] with
          | some (s, r) => some (.str s, r)
          | none => none
        else if c == lbrace then parseObjBody fuel rest
        else if c == '[' then parseArrBody fuel rest
        else parseNumberV (c :: rest)

/-- Object body after the opening brace. -/
def parseObjBody : Nat → List Char → Option (Json × List Char)
  | 0, _ => none
  | fuel + 1, l =>
    let l := l.dropWhile isJsonWs
    match l with
    | [] => none
    | c :: rest =>
      if c == rbrace then some (.obj [], rest)
      else parseMembers fuel (c :: rest) []

/-- One or more `"key": value` members, separated by commas, closed by a
brace; anything else fails. -/
def parseMembers : Nat → List Char → List (String × Json) → Option (Json × List Char)
  | 0, _, _ => none
  | fuel + 1, l, acc =>
    let l := l.dropWhile isJsonWs
    match l with
    | [] => none
    | c :: rest =>
      if c == '"' then
        match parseStringBody rest [] with
        | none => none
        | some (k, r1) =>
          match r1.dropWhile isJsonWs with
          | [] => none
          | c2 :: r2 =>
            if c2 == ':' then
              match parseValue fuel r2 with
              | none => none
              | some (v, r3) =>
                match r3.dropWhile isJsonWs with
                | [] => none
                | c3 :: r4 =>
                  if c3 == ',' then parseMembers fuel r4 (acc ++ [(k, v)])
                  else if c3 == rbrace then some (.obj (acc ++ [(k, v)]), r4)
                  else none
            else none
      else none

/-- Array body after the opening bracket. -/
def parseArrBody : Nat → List Char → Option (Json × List Char)
  | 0, _ => none
  | fuel + 1, l =>
    let l := l.dropWhile isJsonWs
    match l with
    | [] => none
    | c :: rest =>
      if c == ']' then some (.arr [], rest)
      else parseElems fuel (c :: rest) []

/-- One or more array elements, separated by commas, closed by a bracket;
anything else — in particular a stray closing brace — fails. -/
def parseElems : Nat → List Char → List Json → Option (Json × List Char)
  | 0, _, _ => none
  | fuel + 1, l, acc =>
    match parseValue fuel l with
    | none => none
    | some (v, r) =>
      match r.dropWhile isJsonWs with
      | [] => none
      | c :: r2 =>
        if c == ',' then parseElems fuel r2 (acc ++ [v])
        else if c == ']' then some (.arr (acc ++ [v]), r2)
        else none

end

/-- Python `json.loads`: parse one value, allow only whitespace after it. -/
def json_loads (l : List Char) : Option Json :=
  match parseValue (2 * l.length + 2) l with
  | some (v, rest) => if (rest.dropWhile isJsonWs).isEmpty then some v else none
  | none => none

/-- Characters before the next occurrence of three backticks, or `none` when
no closing fence exists. -/
def untilTriple : List Char → Option (List Char)
  | [] => none
  | c :: t => if "```".data.isPrefixOf (c :: t) then some [] else (untilTriple t).map (c :: ·)

/-- Leftmost markdown fence: content of the regex group in
`re.search(r"```(?:json)?\s*([\s\S]*?)```", text)`.  The characters skipped
by the optional `json` tag and the whitespace class contain no backtick, so
committing to the leftmost triple-backtick is faithful to the regex. -/
def findFence : List Char → Option (List Char)
  | [] => none
  | c :: t =>
    if "```".data.isPrefixOf (c :: t) then
      let r := t.drop 2
      let r := if "json".data.isPrefixOf r then r.drop 4 else r
      untilTriple (r.dropWhile isPySpace)
    else findFence t

/-- Embedding of `_extract_json` (src/ai_scanner.py lines 130-136): strip the
text, peel a markdown fence if one matches, and `json.loads` the result. -/
def extract_json (t : String) : Option Json :=
  let l := pyStrip t.data
  match findFence l with
  | some inner => json_loads (pyStrip inner)
  | none => json_loads l

/-- Embedding of the truncated-JSON repair of `scan_receipt`
(src/ai_scanner.py lines 271-279): right-strip, drop one trailing comma,
then append one closing brace per unbalanced opening brace followed by one
closing bracket per unbalanced opening bracket — braces first, brackets
second, exactly as the source concatenates them. -/
def repair_truncated (raw : String) : String :=
  let fixed := raw.data.rdropWhile isPySpace
  if "]".data.isSuffixOf fixed then String.mk fixed
  else
    let fixed := if ",".data.isSuffixOf fixed then fixed.dropLast else fixed
    let openBraces : ℤ := (fixed.count lbrace : ℤ) - fixed.count rbrace
    let openBrackets : ℤ := (fixed.count '[' : ℤ) - fixed.count ']'
    String.mk (fixed ++ List.replicate (max 0 openBraces).toNat rbrace
                     ++ List.replicate (max 0 openBrackets).toNat ']')

/-- Parse-with-one-repair control flow of `scan_receipt`
(src/ai_scanner.py lines 268-288): parse, on failure repair once and retry,
on a second failure return the tagged error. -/
def scan_parse_with_repair (raw : String) : Except String Json :=
  match extract_json raw with
  | some v => .ok v
  | none =>
    match extract_json (repair_truncated raw) with
    | some v => .ok v
    | none => .error "Failed to parse AI response"

/-- The truncated model output named by the specification's repair test
case. -/
def truncatedMilk : String := "[\x7b\"total\": 5.0, \"items\": [\x7b\"item_name\": \"Milk\""

/-! Helper lemmas about the character classes and list operations used by the
validator embedding. -/

lemma isPySpace_not_word {c : Char} (h : isPySpace c = true) : isWordChar c = false := by
  simp only [isPySpace, Bool.or_eq_true, beq_iff_eq] at h
  rcases h with ((((h | h) | h) | h) | h) | h <;> subst h <;> rfl

lemma isSemi_not_word {c : Char} (h : isSemi c = true) : isWordChar c = false := by
  simp only [isSemi, beq_iff_eq] at h
  subst h; rfl

lemma isPySpace_not_semi {c : Char} (h : isPySpace c = true) : isSemi c = false := by
  simp only [isPySpace, Bool.or_eq_true, beq_iff_eq] at h
  rcases h with ((((h | h) | h) | h) | h) | h <;> subst h <;> rfl

lemma isSemi_not_space {c : Char} (h : isSemi c = true) : isPySpace c = false := by
  simp only [isSemi, beq_iff_eq] at h
  subst h; rfl

lemma isPrefixOf_append_right {x a b : List Char} (h : x.isPrefixOf a = true) :
    x.isPrefixOf (a ++ b) = true := by
  induction x generalizing a with
  | nil => simp
  | cons c x' ih =>
    cases a with
    | nil => simp at h
    | cons d a' =>
      rw [List.isPrefixOf_cons₂] at h
      rw [List.cons_append, List.isPrefixOf_cons₂]
      rcases Bool.and_eq_true_iff.mp h with ⟨h1, h2⟩
      exact Bool.and_eq_true_iff.mpr ⟨h1, ih h2⟩

lemma rdropWhile_eq_self_of_all {p : Char → Bool} {x : List Char}
    (h : ∀ c ∈ x, p c = false) : x.rdropWhile p = x := by
  unfold List.rdropWhile
  cases hx : x.reverse with
  | nil =>
    have : x = [] := by simpa using congrArg List.reverse hx
    simp [this]
  | cons c t =>
    have hc : p c = false := h c (by rw [← List.mem_reverse, hx]; exact List.mem_cons_self c t)
    have hd : List.dropWhile p (c :: t) = c :: t := List.dropWhile_cons_of_neg (by simp [hc])
    rw [hd, ← hx, List.reverse_reverse]

lemma rdropWhile_append_of_all {p : Char → Bool} {a q : List Char}
    (hq : ∀ c ∈ q, p c = true) : (a ++ q).rdropWhile p = a.rdropWhile p := by
  unfold List.rdropWhile
  rw [List.reverse_append, List.dropWhile_append_of_pos (by intro c hc; simpa using hq c (by simpa using hc))]

lemma rdropWhile_append_of_ne_nil {p : Char → Bool} {a b : List Char}
    (hb : b.rdropWhile p ≠ []) : (a ++ b).rdropWhile p = a ++ b.rdropWhile p := by
  unfold List.rdropWhile at hb ⊢
  rw [List.reverse_append, List.dropWhile_append, if_neg]
  · rw [List.reverse_append, List.reverse_reverse]
  · intro hempty
    rw [List.isEmpty_iff] at hempty
    exact hb (by simp [hempty])

lemma rdropWhile_append_of_all_neg {p : Char → Bool} {a q : List Char} (h0 : q ≠ [])
    (hq : ∀ c ∈ q, p c = false) : (a ++ q).rdropWhile p = a ++ q := by
  unfold List.rdropWhile
  cases hrev : q.reverse with
  | nil => exact absurd (by simpa using congrArg List.reverse hrev) h0
  | cons c t =>
    have hc : p c = false := hq c (by rw [← List.mem_reverse, hrev]; exact List.mem_cons_self c t)
    have hd : List.dropWhile p (c :: (t ++ a.reverse)) = c :: (t ++ a.reverse) :=
      List.dropWhile_cons_of_neg (by simp [hc])
    rw [List.reverse_append, hrev, List.cons_append, hd, ← List.cons_append, ← hrev,
      ← List.reverse_append, List.reverse_reverse]

lemma dropWhile_append_of_ne_nil {p : Char → Bool} {a b : List Char}
    (h : a.dropWhile p ≠ []) : (a ++ b).dropWhile p = a.dropWhile p ++ b := by
  rw [List.dropWhile_append, if_neg]
  intro hempty
  rw [List.isEmpty_iff] at hempty
  exact h hempty

lemma wordsAux_append_nonword {c : Char} (hc : isWordChar c = false) :
    ∀ (a acc b : List Char), wordsAux (a ++ c :: b) acc = wordsAux a acc ++ wordsAux b [] := by
  intro a
  induction a with
  | nil =>
    intro acc b
    by_cases ha : acc.isEmpty <;> simp [wordsAux, hc, ha]
  | cons d a' ih =>
    intro acc b
    simp only [List.cons_append, wordsAux]
    by_cases hd : isWordChar d
    · simp only [hd, if_true]
      exact ih _ _
    · simp only [hd, Bool.false_eq_true, if_false]
      by_cases ha : acc.isEmpty
      · simp only [ha, if_true]
        exact ih _ _
      · simp only [ha, Bool.false_eq_true, if_false, List.append_eq]
        rw [ih, List.cons_append]

lemma wordsOf_cons_nonword {c : Char} (hc : isWordChar c = false) (b : List Char) :
    wordsOf (c :: b) = wordsOf b := by
  simp [wordsOf, wordsAux, hc]

lemma wordsOf_drop_nonword_front :
    ∀ (t b : List Char), (∀ c ∈ t, isWordChar c = false) → wordsOf (t ++ b) = wordsOf b := by
  intro t
  induction t with
  | nil => simp
  | cons c t' ih =>
    intro b h
    rw [List.cons_append, wordsOf_cons_nonword (h c (List.mem_cons_self c t')),
      ih b (fun d hd => h d (List.mem_cons_of_mem _ hd))]

lemma wordsOf_append_sep {t : List Char} (h0 : t ≠ [])
    (hall : ∀ c ∈ t, isWordChar c = false) (a b : List Char) :
    wordsOf (a ++ (t ++ b)) = wordsOf a ++ wordsOf b := by
  cases t with
  | nil => exact absurd rfl h0
  | cons c t' =>
    have h1 : a ++ (c :: t' ++ b) = a ++ c :: (t' ++ b) := by simp
    rw [h1]
    show wordsAux (a ++ c :: (t' ++ b)) [] = wordsOf a ++ wordsOf b
    rw [wordsAux_append_nonword (hall c (List.mem_cons_self c t')) a [] (t' ++ b)]
    show wordsOf a ++ wordsOf (t' ++ b) = wordsOf a ++ wordsOf b
    rw [wordsOf_drop_nonword_front t' b (fun d hd => hall d (List.mem_cons_of_mem _ hd))]

lemma containsDangerous_append_sep {t : List Char} (h0 : t ≠ [])
    (hall : ∀ c ∈ t, isWordChar c = false) (a b : List Char) :
    containsDangerous (a ++ (t ++ b)) = (containsDangerous a || containsDangerous b) := by
  unfold containsDangerous
  rw [wordsOf_append_sep h0 hall, List.any_append]

lemma validate_sql_accept_iff (sql : String) :
    (validate_sql sql).1 = true ↔
      ("SELECT".data.isPrefixOf (upperChars (sqlStripped sql.data)) = true
        ∧ containsDangerous (sqlStripped sql.data) = false) := by
  cases hsel : "SELECT".data.isPrefixOf (upperChars (sqlStripped sql.data)) <;>
    cases hdang : containsDangerous (sqlStripped sql.data) <;>
      simp [validate_sql, hsel, hdang]

lemma dropWhile_head_false {p : Char → Bool} :
    ∀ {l : List Char} {c : Char} {r : List Char}, l.dropWhile p = c :: r → p c = false := by
  intro l
  induction l with
  | nil => intro c r h; simp [List.dropWhile] at h
  | cons d t ih =>
    intro c r h
    by_cases hd : p d
    · rw [List.dropWhile_cons_of_pos hd] at h
      exact ih h
    · rw [List.dropWhile_cons_of_neg hd] at h
      injection h with h1 h2
      subst h1
      cases hpd : p d
      · rfl
      · exact absurd hpd hd

/-- Structural fact behind the row-cap invariant: right-stripping only the
semicolons of the raw statement and then left-stripping whitespace yields the
fully stripped validator string followed by residue made of whitespace and
semicolons only. -/
lemma dropWhile_rdropSemi_decomp (l : List Char) :
    ∃ junk : List Char,
      (l.rdropWhile isSemi).dropWhile isPySpace = sqlStripped l ++ junk
        ∧ ∀ c ∈ junk, isPySpace c = true ∨ isSemi c = true := by
  obtain ⟨w, hwdef⟩ : ∃ x, x = l.takeWhile isPySpace := ⟨_, rfl⟩
  obtain ⟨m, hmdef⟩ : ∃ x, x = l.dropWhile isPySpace := ⟨_, rfl⟩
  have hlm : w ++ m = l := by
    rw [hwdef, hmdef]; exact List.takeWhile_append_dropWhile isPySpace l
  have hw : ∀ c ∈ w, isPySpace c = true := by
    intro c hc; rw [hwdef] at hc; exact List.mem_takeWhile_imp hc
  obtain ⟨m1, hm1def⟩ : ∃ x, x = m.rdropWhile isPySpace := ⟨_, rfl⟩
  obtain ⟨q, hqdef⟩ : ∃ x, x = m.rtakeWhile isPySpace := ⟨_, rfl⟩
  have hm1q : m1 ++ q = m := by
    rw [hm1def, hqdef]
    unfold List.rdropWhile List.rtakeWhile
    rw [← List.reverse_append, List.takeWhile_append_dropWhile, List.reverse_reverse]
  have hq : ∀ c ∈ q, isPySpace c = true := by
    intro c hc; rw [hqdef] at hc; exact List.mem_rtakeWhile_imp hc
  obtain ⟨V, hVdef⟩ : ∃ x, x = m1.rdropWhile isSemi := ⟨_, rfl⟩
  obtain ⟨e, hedef⟩ : ∃ x, x = m1.rtakeWhile isSemi := ⟨_, rfl⟩
  have hVe : V ++ e = m1 := by
    rw [hVdef, hedef]
    unfold List.rdropWhile List.rtakeWhile
    rw [← List.reverse_append, List.takeWhile_append_dropWhile, List.reverse_reverse]
  have he : ∀ c ∈ e, isSemi c = true := by
    intro c hc; rw [hedef] at hc; exact List.mem_rtakeWhile_imp hc
  have hVs : sqlStripped l = V := by
    rw [hVdef, hm1def, hmdef]; rfl
  by_cases hm0 : m = []
  · -- the statement is pure whitespace
    refine ⟨[], ?_, by simp⟩
    have hall : ∀ c ∈ l, isPySpace c = true := by
      intro c hc
      rw [← hlm, hm0, List.append_nil] at hc
      exact hw c hc
    have h1 : l.rdropWhile isSemi = l :=
      rdropWhile_eq_self_of_all (fun c hc => isPySpace_not_semi (hall c hc))
    have h2 : V = [] := by
      rw [hVdef, hm1def, hm0]
      simp
    rw [h1, List.dropWhile_eq_nil_iff.mpr hall, hVs, h2]
    simp
  · have hmhead : ∀ c r, m = c :: r → isPySpace c = false := by
      intro c r hcr
      exact dropWhile_head_false (hmdef.symm.trans hcr)
    by_cases hq0 : q = []
    · -- no trailing whitespace on the statement
      have hmm1 : m = m1 := by rw [← hm1q, hq0, List.append_nil]
      by_cases hV0 : V = []
      · -- the statement is semicolons only
        have halle : ∀ c ∈ m1, isSemi c = true := by
          have h := List.rdropWhile_eq_nil_iff.mp (hVdef.symm.trans hV0)
          exact h
        refine ⟨[], ?_, by simp⟩
        have h1 : l.rdropWhile isSemi = w := by
          conv_lhs => rw [← hlm, hmm1]
          rw [rdropWhile_append_of_all halle, rdropWhile_eq_self_of_all
            (fun c hc => isPySpace_not_semi (hw c hc))]
        rw [h1, List.dropWhile_eq_nil_iff.mpr hw, hVs, hV0]
        simp
      · -- the validator string is nonempty and leads the statement
        have h1 : l.rdropWhile isSemi = w ++ V := by
          conv_lhs => rw [← hlm, hmm1]
          rw [rdropWhile_append_of_ne_nil (by rw [← hVdef]; exact hV0), ← hVdef]
        refine ⟨[], ?_, by simp⟩
        rw [h1, List.dropWhile_append_of_pos hw, hVs, List.append_nil]
        -- dropWhile on V is the identity: V starts with a non-space character
        cases hVc : V with
        | nil => exact absurd hVc hV0
        | cons c V' =>
          have hchar : isPySpace c = false := by
            apply hmhead c (V' ++ e)
            rw [hmm1, ← hVe, hVc, List.cons_append]
          rw [List.dropWhile_cons_of_neg (by simp [hchar])]
    · -- trailing whitespace on the statement survives the semicolon strip
      have hqsemi : ∀ c ∈ q, isSemi c = false := fun c hc => isPySpace_not_semi (hq c hc)
      have hrm : m.rdropWhile isSemi = m := by
        conv_lhs => rw [← hm1q]
        rw [rdropWhile_append_of_all_neg hq0 hqsemi, hm1q]
      have h1 : l.rdropWhile isSemi = w ++ m := by
        conv_lhs => rw [← hlm]
        rw [rdropWhile_append_of_ne_nil (by rw [hrm]; exact hm0), hrm]
      refine ⟨e ++ q, ?_, ?_⟩
      · rw [h1, List.dropWhile_append_of_pos hw, hVs]
        have h2 : m.dropWhile isPySpace = m := by
          rw [hmdef]; exact List.dropWhile_idempotent isPySpace l
        rw [h2, ← hm1q, ← hVe, List.append_assoc]
      · intro c hc
        rcases List.mem_append.mp hc with hc | hc
        · exact Or.inr (he c hc)
        · exact Or.inl (hq c hc)

lemma upperChars_append (a b : List Char) :
    upperChars (a ++ b) = upperChars a ++ upperChars b := List.map_append _ _ _

lemma sqlStripped_ne_nil_of_select {sql : String}
    (h : "SELECT".data.isPrefixOf (upperChars (sqlStripped sql.data)) = true) :
    sqlStripped sql.data ≠ [] := by
  intro h0
  rw [h0] at h
  rw [show upperChars [] = [] from rfl] at h
  exact absurd h (by decide)

/-- The row-cap rewrite never invalidates an accepted statement: the shared
engine of claim C9. -/
lemma validate_ensure_limit {sql : String} (h : (validate_sql sql).1 = true) :
    (validate_sql (ensure_limit sql)).1 = true := by
  rw [validate_sql_accept_iff] at h
  obtain ⟨hsel, hdang⟩ := h
  by_cases hlim : containsSub "LIMIT".data (upperChars sql.data) = true
  · rw [ensure_limit, if_pos hlim, validate_sql_accept_iff]
    exact ⟨hsel, hdang⟩
  · obtain ⟨junk, hj, hjmem⟩ := dropWhile_rdropSemi_decomp sql.data
    have hVne : sqlStripped sql.data ≠ [] := sqlStripped_ne_nil_of_select hsel
    have hens : (ensure_limit sql).data = sql.data.rdropWhile isSemi ++ " LIMIT 500".data := by
      rw [ensure_limit, if_neg hlim, String.data_append, String.data_append]
      show sql.data.rdropWhile isSemi ++ " LIMIT ".data ++ (toString MAX_ROWS).data = _
      rw [List.append_assoc,
        show " LIMIT ".data ++ (toString MAX_ROWS).data = " LIMIT 500".data from by decide]
    have hL0 : (sqlStripped sql.data ++ junk) ++ " LIMIT 500".data
        = ((sqlStripped sql.data ++ junk) ++ " LIMIT 50".data) ++ ['0'] := by
      rw [show " LIMIT 500".data = " LIMIT 50".data ++ ['0'] from by decide, ← List.append_assoc]
    have hstr : sqlStripped (ensure_limit sql).data
        = sqlStripped sql.data ++ (junk ++ " LIMIT 500".data) := by
      show (((ensure_limit sql).data.dropWhile isPySpace).rdropWhile
        isPySpace).rdropWhile isSemi = _
      rw [hens, dropWhile_append_of_ne_nil (by
        rw [hj]
        intro hc
        exact hVne (List.append_eq_nil.mp hc).1)]
      rw [hj, hL0, List.rdropWhile_concat_neg isPySpace _ '0' (by decide),
        List.rdropWhile_concat_neg isSemi _ '0' (by decide), ← hL0, List.append_assoc]
    rw [validate_sql_accept_iff, hstr]
    have hnonword : ∀ c ∈ junk ++ [' '], isWordChar c = false := by
      intro c hc
      rcases List.mem_append.mp hc with hc | hc
      · rcases hjmem c hc with hcc | hcc
        · exact isPySpace_not_word hcc
        · exact isSemi_not_word hcc
      · rw [List.mem_singleton.mp hc]; rfl
    constructor
    · rw [upperChars_append]
      exact isPrefixOf_append_right hsel
    · have hsep : junk ++ " LIMIT 500".data = (junk ++ [' ']) ++ "LIMIT 500".data := by
        rw [show " LIMIT 500".data = ' ' :: "LIMIT 500".data from by decide, List.append_assoc]
        rfl
      rw [hsep, containsDangerous_append_sep (by simp) hnonword, hdang,
        show containsDangerous "LIMIT 500".data = false from by decide]
      rfl

/-- C1: the safety validator accepts a statement only if, after stripping
surrounding whitespace and trailing semicolons, its text begins
case-insensitively with SELECT; any statement failing that leading-keyword
test is rejected with the specific reason string, `"UPDATE receipts SET
total=0"` among them, while `"  select * from receipts"` is accepted. -/
theorem claim_C1_select_only :
    (∀ sql : String, (validate_sql sql).1 = true →
      "SELECT".data.isPrefixOf (upperChars (sqlStripped sql.data)) = true)
    ∧ (∀ sql : String, "SELECT".data.isPrefixOf (upperChars (sqlStripped sql.data)) = false →
      validate_sql sql = (false, some "Query must be a SELECT statement."))
    ∧ validate_sql "UPDATE receipts SET total=0" =
        (false, some "Query must be a SELECT statement.")
    ∧ (validate_sql "  select * from receipts").1 = true := by
  refine ⟨?_, ?_, by decide, by decide⟩
  · intro sql h
    exact ((validate_sql_accept_iff sql).mp h).1
  · intro sql h
    simp [validate_sql, h]

/-- Witness for C1 at the concrete accepted input of the claim. -/
theorem claim_C1_select_only_witness :
    "SELECT".data.isPrefixOf (upperChars (sqlStripped ("  select * from receipts").data)) = true :=
  claim_C1_select_only.1 "  select * from receipts" (by decide)

/-- C2: a statement whose stripped text contains a forbidden keyword as a
whole word (case-insensitive, anywhere) is rejected; acceptance is exactly
the leading-SELECT test plus absence of whole-word forbidden keywords, so a
keyword occurring only inside an identifier does not reject — in particular
`"SELECT created_at FROM receipts"` passes both rules. -/
theorem claim_C2_word_boundary :
    (∀ sql : String, containsDangerous (sqlStripped sql.data) = true →
      (validate_sql sql).1 = false)
    ∧ (∀ sql : String, (validate_sql sql).1 = true ↔
        ("SELECT".data.isPrefixOf (upperChars (sqlStripped sql.data)) = true
          ∧ containsDangerous (sqlStripped sql.data) = false))
    ∧ validate_sql "SELECT created_at FROM receipts" = (true, none) := by
  refine ⟨?_, validate_sql_accept_iff, by decide⟩
  intro sql h
  cases hv : (validate_sql sql).1
  · rfl
  · rcases (validate_sql_accept_iff sql).mp hv with ⟨_, hd⟩
    rw [h] at hd
    cases hd

/-- Witness for C2 at a concrete input containing the whole word DROP. -/
theorem claim_C2_word_boundary_witness :
    (validate_sql "SELECT 1; DROP TABLE receipts").1 = false :=
  claim_C2_word_boundary.1 "SELECT 1; DROP TABLE receipts" (by decide)

/-- C3: an accepted statement without a LIMIT occurrence is rewritten by
stripping trailing semicolons and appending the fixed row cap as
`" LIMIT 500"`, while an accepted statement already containing LIMIT is left
untouched. -/
theorem claim_C3_row_cap :
    ∀ sql : String, (validate_sql sql).1 = true →
      (containsSub "LIMIT".data (upperChars sql.data) = false →
        ensure_limit sql = String.mk (sql.data.rdropWhile isSemi) ++ " LIMIT 500")
      ∧ (containsSub "LIMIT".data (upperChars sql.data) = true → ensure_limit sql = sql) := by
  intro sql _
  constructor
  · intro h
    rw [ensure_limit, if_neg (by simp [h])]
    apply String.ext
    rw [String.data_append, String.data_append, String.data_append, List.append_assoc]
    rw [show " LIMIT ".data ++ (toString MAX_ROWS).data = " LIMIT 500".data from by decide]
  · intro h
    rw [ensure_limit, if_pos h]

/-- Witness for C3 at concrete inputs with and without a LIMIT clause. -/
theorem claim_C3_row_cap_witness :
    ensure_limit "SELECT * FROM receipts LIMIT 10" = "SELECT * FROM receipts LIMIT 10" :=
  (claim_C3_row_cap "SELECT * FROM receipts LIMIT 10" (by decide)).2 (by decide)

/-- C9: the row-cap rewrite preserves validator acceptance, so every
statement actually executed still satisfies both safety rules. -/
theorem claim_C9_rewrite_preserves_validity :
    ∀ sql : String, (validate_sql sql).1 = true →
      (validate_sql (ensure_limit sql)).1 = true :=
  fun _ h => validate_ensure_limit h

/-- Witness for C9 at a concrete accepted statement without a LIMIT clause,
so the append branch is the one exercised. -/
theorem claim_C9_rewrite_preserves_validity_witness :
    (validate_sql (ensure_limit "select total from receipts")).1 = true :=
  claim_C9_rewrite_preserves_validity "select total from receipts" (by decide)

/-! Normal forms for the extraction normalizer. -/

lemma pyQuantity_ne_zero (q : Option ℚ) : pyQuantity q ≠ 0 := by
  cases q with
  | none => norm_num [pyQuantity]
  | some x =>
    simp only [pyQuantity]
    split_ifs with h
    · norm_num
    · exact h

lemma fix_category_eq (i : LineItem) :
    fix_category i = { i with category :=
      if (memberStr i.category VALID_ITEM_CATEGORIES) then i.category else some "Other" } := by
  unfold fix_category
  split_ifs with h <;> rfl

lemma fix_unit_eq (i : LineItem) :
    fix_unit i = { i with unit :=
      if (memberStr i.unit VALID_UNITS) then i.unit else some "each" } := by
  unfold fix_unit
  split_ifs with h <;> rfl

lemma fix_amounts_eq (i : LineItem) :
    fix_amounts i = { i with
      unit_price :=
        if truthyNum i.unit_price = false ∧ pyQuantity i.quantity ≠ 0 ∧ i.line_total.getD 0 ≠ 0
        then some (round2 (i.line_total.getD 0 / pyQuantity i.quantity)) else i.unit_price,
      line_total :=
        if i.line_total.getD 0 = 0 ∧ truthyNum i.unit_price = true ∧ pyQuantity i.quantity ≠ 0
        then some (round2 (i.unit_price.getD 0 * pyQuantity i.quantity)) else i.line_total } := by
  simp only [fix_amounts]
  split_ifs with h1 h2 <;> rfl

lemma clean_item_fields (i : LineItem) :
    clean_item i = { i with
      category := if memberStr i.category VALID_ITEM_CATEGORIES then i.category else some "Other",
      unit := if memberStr i.unit VALID_UNITS then i.unit else some "each",
      unit_price :=
        if truthyNum i.unit_price = false ∧ pyQuantity i.quantity ≠ 0 ∧ i.line_total.getD 0 ≠ 0
        then some (round2 (i.line_total.getD 0 / pyQuantity i.quantity)) else i.unit_price,
      line_total :=
        if i.line_total.getD 0 = 0 ∧ truthyNum i.unit_price = true ∧ pyQuantity i.quantity ≠ 0
        then some (round2 (i.unit_price.getD 0 * pyQuantity i.quantity)) else i.line_total } := by
  unfold clean_item
  rw [fix_category_eq, fix_unit_eq, fix_amounts_eq]

lemma clean_item_idem (i : LineItem) : clean_item (clean_item i) = clean_item i := by
  rw [clean_item_fields i, clean_item_fields]
  simp only [LineItem.mk.injEq, true_and, and_true]
  refine ⟨?_, ?_, ?_, ?_⟩
  · by_cases h : memberStr i.category VALID_ITEM_CATEGORIES = true
    · simp [h]
    · simp only [Bool.not_eq_true] at h
      simp [h, show memberStr (some "Other") VALID_ITEM_CATEGORIES = true from by decide]
  · by_cases h : memberStr i.unit VALID_UNITS = true
    · simp [h]
    · simp only [Bool.not_eq_true] at h
      simp [h, show memberStr (some "each") VALID_UNITS = true from by decide]
  · split_ifs with h1 h2 h3 h3 h2 h3 <;> try rfl
    · exact absurd h2.1 h1.2.2
    · exact absurd h2.2.1 (by simp [h3.1])
  · split_ifs with h1 h2 h3 h3 h2 h3 <;> try rfl
    · exact absurd h1.1 h2.2.2
    · exact absurd h3.1 h2.2.2

lemma validate_and_clean_eq (d : ReceiptData) :
    validate_and_clean d = { d with
      store_category :=
        if (memberStr d.store_category VALID_STORE_CATEGORIES) then d.store_category
        else some "Other",
      items := d.items.map clean_item } := by
  unfold validate_and_clean
  split_ifs with h <;> rfl

/-- C5: the extraction validator/normalizer is idempotent — applying
`_validate_and_clean` twice yields the same record as applying it once. -/
theorem claim_C5_normalizer_idempotent (d : ReceiptData) :
    validate_and_clean (validate_and_clean d) = validate_and_clean d := by
  rw [validate_and_clean_eq d, validate_and_clean_eq]
  simp only [ReceiptData.mk.injEq, true_and, and_true]
  constructor
  · by_cases h : memberStr d.store_category VALID_STORE_CATEGORIES = true
    · simp [h]
    · simp only [Bool.not_eq_true] at h
      simp [h, show memberStr (some "Other") VALID_STORE_CATEGORIES = true from by decide]
  · rw [List.map_map, show clean_item ∘ clean_item = clean_item from funext clean_item_idem]

/-- Witness for C5 at a concrete parsed receipt. -/
theorem claim_C5_normalizer_idempotent_witness :
    validate_and_clean (validate_and_clean
      ⟨some "Market", none, some "Shop", none, none, none, none, some 5, none,
        [⟨some "MILK", some "Milk", none, some 2, none, none, some 5, none, none⟩]⟩)
    = validate_and_clean
      ⟨some "Market", none, some "Shop", none, none, none, none, some 5, none,
        [⟨some "MILK", some "Milk", none, some 2, none, none, some 5, none, none⟩]⟩ :=
  claim_C5_normalizer_idempotent _

/-- C6: for a line item with a present non-zero quantity, a falsy
`unit_price` together with a present non-zero `line_total` is completed as
`round(line_total / quantity, 2)`, and symmetrically a falsy `line_total`
with a present non-zero `unit_price` as `round(unit_price * quantity, 2)`. -/
theorem claim_C6_derived_fields :
    ∀ (i : LineItem) (q : ℚ), i.quantity = some q → q ≠ 0 →
      ((truthyNum i.unit_price = false → ∀ l : ℚ, i.line_total = some l → l ≠ 0 →
          (clean_item i).unit_price = some (round2 (l / q)))
        ∧ (i.line_total.getD 0 = 0 → ∀ p : ℚ, i.unit_price = some p → p ≠ 0 →
          (clean_item i).line_total = some (round2 (p * q)))) := by
  intro i q hq hq0
  have hpy : pyQuantity i.quantity = q := by
    rw [hq]
    simp only [pyQuantity]
    rw [if_neg hq0]
  constructor
  · intro hup l hl hl0
    rw [clean_item_fields]
    show (if truthyNum i.unit_price = false ∧ pyQuantity i.quantity ≠ 0
          ∧ i.line_total.getD 0 ≠ 0
        then some (round2 (i.line_total.getD 0 / pyQuantity i.quantity))
        else i.unit_price) = some (round2 (l / q))
    rw [if_pos ⟨hup, by rw [hpy]; exact hq0, by rw [hl]; simpa using hl0⟩, hl, hpy]
    rfl
  · intro hlt p hp hp0
    rw [clean_item_fields]
    show (if i.line_total.getD 0 = 0 ∧ truthyNum i.unit_price = true
          ∧ pyQuantity i.quantity ≠ 0
        then some (round2 (i.unit_price.getD 0 * pyQuantity i.quantity))
        else i.line_total) = some (round2 (p * q))
    rw [if_pos ⟨hlt, by rw [hp]; simpa [truthyNum] using hp0, by rw [hpy]; exact hq0⟩, hp, hpy]
    rfl

/-- Witness for C6 at a concrete item with missing unit price. -/
theorem claim_C6_derived_fields_witness :
    (clean_item ⟨none, none, none, some 4, none, none, some 10, none, none⟩).unit_price
      = some (round2 (10 / 4)) :=
  (claim_C6_derived_fields ⟨none, none, none, some 4, none, none, some 10, none, none⟩ 4
    rfl (by norm_num)).1 rfl 10 rfl (by norm_num)

/-- C10: `_validate_and_clean` modifies only the receipt's `store_category`
and, per line item, only `category`, `unit`, `unit_price` and `line_total`;
every other receipt field, every other item field, and the number and order
of the line items are returned unchanged. -/
theorem claim_C10_frame (d : ReceiptData) :
    (validate_and_clean d).store_name = d.store_name
    ∧ (validate_and_clean d).store_address = d.store_address
    ∧ (validate_and_clean d).receipt_date = d.receipt_date
    ∧ (validate_and_clean d).subtotal = d.subtotal
    ∧ (validate_and_clean d).tax = d.tax
    ∧ (validate_and_clean d).tip = d.tip
    ∧ (validate_and_clean d).total = d.total
    ∧ (validate_and_clean d).payment_method = d.payment_method
    ∧ (validate_and_clean d).items.length = d.items.length
    ∧ (validate_and_clean d).items.map
        (fun it => (it.item_name, it.normalized_name, it.quantity, it.notes, it.rating))
      = d.items.map
        (fun it => (it.item_name, it.normalized_name, it.quantity, it.notes, it.rating)) := by
  rw [validate_and_clean_eq]
  refine ⟨rfl, rfl, rfl, rfl, rfl, rfl, rfl, rfl, by simp, ?_⟩
  show (d.items.map clean_item).map _ = _
  rw [List.map_map]
  congr 1
  funext it
  show ((clean_item it).item_name, (clean_item it).normalized_name, (clean_item it).quantity,
    (clean_item it).notes, (clean_item it).rating)
    = (it.item_name, it.normalized_name, it.quantity, it.notes, it.rating)
  rw [clean_item_fields]

/-- C7: when an accepted query executes successfully but returns zero rows
and the SQL text contains `SUM(` or `TOTAL` case-insensitively, the result is
exactly one synthesized row over all returned columns, in which every
money-keyword column holds `"$0.00"` and every other column holds zero; no
empty result set is returned in that case. -/
theorem claim_C7_empty_aggregate :
    ∀ (sql : String) (columns : List String), aggregate_hint sql = true →
      empty_result_fallback sql columns [] = [zero_row columns]
      ∧ (empty_result_fallback sql columns []).length = 1
      ∧ empty_result_fallback sql columns [] ≠ []
      ∧ ∀ col ∈ columns,
          (is_money_column col = true → (col, DbValue.str "$0.00") ∈ zero_row columns)
          ∧ (is_money_column col = false → (col, DbValue.num 0) ∈ zero_row columns) := by
  intro sql cols h
  have h1 : empty_result_fallback sql cols [] = [zero_row cols] := by
    unfold empty_result_fallback
    simp [h]
  refine ⟨h1, by rw [h1]; rfl, by rw [h1]; simp, ?_⟩
  intro col hc
  constructor
  · intro hm
    exact List.mem_map.mpr ⟨col, hc, by simp [hm]⟩
  · intro hm
    exact List.mem_map.mpr ⟨col, hc, by simp [hm]⟩

/-- Witness for C7 at a concrete SUM query with one money column. -/
theorem claim_C7_empty_aggregate_witness :
    empty_result_fallback "SELECT SUM(total) AS total_spent FROM receipts LIMIT 500"
      ["total_spent"] [] = [zero_row ["total_spent"]] :=
  (claim_C7_empty_aggregate "SELECT SUM(total) AS total_spent FROM receipts LIMIT 500"
    ["total_spent"] (by decide)).1

/-- C8: starting from a clean session, every `run_query` call — rejected,
executed successfully, or erroring — commits exactly one audit entry, that
entry carries the question and the (possibly rewritten) generated SQL, and on
an execution error the rollback event precedes the audit commit. -/
theorem claim_C8_audit_log :
    ∀ (uid : Nat) (question generated_sql : String) (exec : String → ExecOutcome)
      (s : DbSession), s.txFailed = false →
      (((run_query uid question generated_sql exec s).2.2.filter is_log_commit).length = 1
      ∧ (∃ e : QueryLog,
          (run_query uid question generated_sql exec s).2.1.logs = s.logs ++ [e]
          ∧ e.user_id = uid ∧ e.question = question
          ∧ (e.generated_sql = generated_sql ∨ e.generated_sql = ensure_limit generated_sql))
      ∧ (∀ msg, exec (ensure_limit generated_sql) = ExecOutcome.raises msg →
          (validate_sql generated_sql).1 = true →
          (run_query uid question generated_sql exec s).2.2
            = [DbEvent.rollback,
               DbEvent.logCommit ⟨uid, question, ensure_limit generated_sql,
                 "ERROR: " ++ msg.take 200⟩])) := by
  intro uid question gsql exec s hs
  unfold run_query
  cases hv : validate_sql gsql with
  | mk valid err =>
    cases valid
    · -- rejected by the validator
      simp only [commit_log, hs, Bool.false_eq_true, if_false]
      refine ⟨by simp [is_log_commit], ⟨_, rfl, rfl, rfl, Or.inl rfl⟩, ?_⟩
      intro msg _ hacc
      exact hacc.elim
    · -- accepted: execution either succeeds or raises
      simp only []
      cases hex : exec (ensure_limit gsql) with
      | ok columns rawRows =>
        simp only [commit_log, hs, Bool.false_eq_true, if_false]
        refine ⟨by simp [is_log_commit], ⟨_, rfl, rfl, rfl, Or.inr rfl⟩, ?_⟩
        intro msg hmsg _
        cases hmsg
      | raises msg =>
        simp only [commit_log, Bool.false_eq_true, if_false]
        refine ⟨by simp [is_log_commit], ⟨_, rfl, rfl, rfl, Or.inr rfl⟩, ?_⟩
        intro msg2 hmsg _
        cases hmsg
        rfl

/-- Witness for C8 at a concrete rejected statement against an empty
session. -/
theorem claim_C8_audit_log_witness :
    ((run_query 1 "wipe it" "DELETE FROM receipts" (fun _ => ExecOutcome.ok [] [])
      ⟨[], false⟩).2.2.filter is_log_commit).length = 1 :=
  (claim_C8_audit_log 1 "wipe it" "DELETE FROM receipts" (fun _ => ExecOutcome.ok [] [])
    ⟨[], false⟩ rfl).1

/-- C4 (code bug): the repair step counts unbalanced curly braces and square
brackets and appends all missing closing braces first, then all missing
closing brackets.  On the specification's own test input the open braces and
brackets are interleaved, so the repaired text ends in two braces followed by
two brackets and is not valid JSON; the single retry therefore fails and
`scan_receipt` returns the tagged parse error instead of one receipt with one
item.  The nesting-ordered closing (brace, bracket, brace, bracket) would
have produced exactly the one-receipt/one-item value. -/
theorem claim_C4_truncation_repair_code_bug :
    repair_truncated truncatedMilk = truncatedMilk ++ "\x7d\x7d]]"
    ∧ extract_json (repair_truncated truncatedMilk) = none
    ∧ scan_parse_with_repair truncatedMilk = Except.error "Failed to parse AI response"
    ∧ json_loads (truncatedMilk ++ "\x7d]\x7d]").data
        = some (Json.arr [Json.obj [("total", Json.num 5),
            ("items", Json.arr [Json.obj [("item_name", Json.str "Milk")]])]]) :=
  ⟨by decide, by with_unfolding_all rfl, by with_unfolding_all rfl, by with_unfolding_all rfl⟩

end ReceiptsHist
